import Mathlib

/-!
Verification development for the listen-chat-create browser chat widget.

The repository contains a provider-normalization layer (two revisions of a
Gemini service adapter), a chat container component owning the conversation
log and the request lifecycle, and voice input/output glue.  This file embeds
those parts as executable Lean definitions, translated from the TypeScript
sources, and proves the specified properties about them.

Namespacing of the two Gemini service revisions:
 - `Gemini`   : the revision whose `Message` carries `content : string` plus an
   optional `imageData`, and whose `formatMessagesForGemini` folds the system
   message text into the first user turn.
 - `GeminiV0` : the revision whose `Message.content` is `string | ImageContent`
   and whose `formatMessagesForGemini` takes an optional pending `imageData`
   parameter attached to the last user message.
-/

/-- Chat roles, from the TypeScript union `'user' | 'assistant' | 'system'`. -/
inductive Role where
  | user
  | assistant
  | system
deriving DecidableEq

/-- JavaScript truthiness of an optional string: `undefined`, `null` and the
empty string are falsy. -/
def optTruthy (o : Option String) : Bool :=
  match o with
  | none => false
  | some s => s ≠ ""

namespace Gemini

/-- `Message` of the folding revision of the Gemini service:
`role`, `content : string`, optional `imageData`. -/
structure Message where
  role : Role
  content : String
  imageData : Option String := none
deriving DecidableEq

/-- One element of a wire turn's `parts` array: either `\x7b text \x7d` or
`\x7b inlineData: \x7b mimeType, data \x7d \x7d`. -/
inductive Part where
  | text (s : String)
  | inlineData (mimeType : String) (data : String)
deriving DecidableEq

/-- A serialized wire turn `\x7b role, parts \x7d`; `role` is the literal wire
string (`"user"` or `"model"`). -/
structure Turn where
  role : String
  parts : List Part
deriving DecidableEq

/-- The wire role string: `message.role === 'assistant' ? 'model' : 'user'`. -/
def wireRole (r : Role) : String :=
  if r = Role.assistant then "model" else "user"

/-- The system text extracted by `formatMessagesForGemini`: the content of the
first system message when one exists, else the empty string. -/
def extractSystemMessage (messages : List Message) : String :=
  match (messages.filter (fun m => m.role = Role.system)).head? with
  | some m => m.content
  | none => ""

/-- The optional inline-image part appended when the message is a user message
with truthy `imageData`. -/
def imageParts (m : Message) : List Part :=
  if m.role = Role.user ∧ optTruthy m.imageData then
    [Part.inlineData "image/jpeg" (m.imageData.getD "")]
  else
    []

/-- The parts of the turn built for the non-system message at loop index `i`:
the text part folds the system text into the first user message, and an
inline-image part is appended for a user message carrying `imageData`. -/
def mkParts (systemMessage : String) (i : Nat) (m : Message) : List Part :=
  (if i = 0 ∧ m.role = Role.user ∧ systemMessage ≠ "" then
    [Part.text (systemMessage ++ "\n\nUser: " ++ m.content)]
  else
    [Part.text m.content]) ++ imageParts m

/-- The body of the `for` loop of `formatMessagesForGemini`, indexed exactly as
the source's loop counter. -/
def formatLoop (systemMessage : String) : Nat → List Message → List Turn
  | _, [] => []
  | i, m :: rest =>
      { role := wireRole m.role, parts := mkParts systemMessage i m } ::
        formatLoop systemMessage (i + 1) rest

/-- `GeminiService.formatMessagesForGemini` (folding revision): extract the
system text, drop system messages, and serialize the rest in order, folding
the system text into the first message when it is a user message. -/
def formatMessagesForGemini (messages : List Message) : List Turn :=
  formatLoop (extractSystemMessage messages) 0
    (messages.filter (fun m => m.role ≠ Role.system))

/-- The turn built for a non-system message that receives no folded text. -/
def plainTurn (m : Message) : Turn :=
  { role := wireRole m.role, parts := Part.text m.content :: imageParts m }

/-- The first turn when the system text `sys` is folded into user message `m`. -/
def foldedTurn (sys : String) (m : Message) : Turn :=
  { role := "user",
    parts := Part.text (sys ++ "\n\nUser: " ++ m.content) :: imageParts m }

end Gemini

namespace Gemini

/-- `generationConfig` of every outbound Gemini request; numeric literals are
embedded as exact rationals. -/
structure GenerationConfig where
  temperature : ℚ
  maxOutputTokens : Nat
  topP : ℚ
  topK : Nat
deriving DecidableEq

/-- Body of the conversational `generateContent` request issued by
`generateResponse`. -/
structure GenerateRequest where
  contents : List Turn
  generationConfig : GenerationConfig
deriving DecidableEq

/-- The single role-less content object of the one-shot vision request. -/
structure VisionContent where
  parts : List Part
deriving DecidableEq

/-- Body of the one-shot vision `generateContent` request issued by
`generateResponseWithImage`. -/
structure VisionRequest where
  contents : List VisionContent
  generationConfig : GenerationConfig
deriving DecidableEq

/-- The request body built by `generateResponse`: serialized conversation plus
the literal generation config `temperature 0.7, maxOutputTokens 800,
topP 0.95, topK 40`. -/
def generateResponseRequest (messages : List Message) : GenerateRequest :=
  { contents := formatMessagesForGemini messages,
    generationConfig :=
      { temperature := 0.7, maxOutputTokens := 800, topP := 0.95, topK := 40 } }

/-- The request body built by `generateResponseWithImage`: one role-less turn
holding the prompt text and the inline image, plus the same literal
generation config. -/
def generateResponseWithImageRequest (text : String) (imageBase64 : String) :
    VisionRequest :=
  { contents :=
      [{ parts := [Part.text text, Part.inlineData "image/jpeg" imageBase64] }],
    generationConfig :=
      { temperature := 0.7, maxOutputTokens := 800, topP := 0.95, topK := 40 } }

/-- One element of a response `parts` array; its `text` field may be absent. -/
structure RespPart where
  text : Option String
deriving DecidableEq

/-- A response `content` object; its `parts` field may be absent. -/
structure RespContent where
  parts : Option (List RespPart)
deriving DecidableEq

/-- A response candidate; its `content` field may be absent. -/
structure Candidate where
  content : Option RespContent
deriving DecidableEq

/-- A parsed 2xx response body; its `candidates` field may be absent. -/
structure GeminiResponse where
  candidates : Option (List Candidate)
deriving DecidableEq

/-- The optional-chaining path `data.candidates[0]?.content?.parts`. -/
def candidatesParts (r : GeminiResponse) : Option (List RespPart) :=
  (((r.candidates.bind List.head?).bind Candidate.content).bind RespContent.parts)

/-- Reply extraction of `generateResponse`: the guard
`data.candidates && data.candidates[0]?.content?.parts && parts.length > 0`
selects `parts[0].text` (which may itself be absent), else the call raises
`Error('Invalid response format from Gemini API')`. -/
def extractReply (r : GeminiResponse) : Except String (Option String) :=
  match candidatesParts r with
  | some (p :: _) => Except.ok p.text
  | some [] => Except.error "Invalid response format from Gemini API"
  | none => Except.error "Invalid response format from Gemini API"

end Gemini

namespace GeminiV0

/-- `Message.content` of the earlier Gemini service revision:
`string | ImageContent` where `ImageContent` is `\x7b type: 'image', data \x7d`. -/
inductive Content where
  | text (s : String)
  | image (data : String)
deriving DecidableEq

/-- `Message` of the earlier revision: `role` and `content`. -/
structure Message where
  role : Role
  content : Content
deriving DecidableEq

/-- The single part derived from the message content: a text part for string
content, an inline-image part (JPEG) for image content. -/
def contentParts (m : Message) : List Gemini.Part :=
  match m.content with
  | Content.text s => [Gemini.Part.text s]
  | Content.image d => [Gemini.Part.inlineData "image/jpeg" d]

/-- The turn built for the non-system message at position `i` of the original
list: the content part, plus the pending `imageData` parameter appended when
it is truthy, the message is the last element of the original list, and the
message role is user. -/
def mkTurn (imageData : Option String) (lastIdx : Nat) (i : Nat)
    (m : Message) : Gemini.Turn :=
  { role := Gemini.wireRole m.role,
    parts := contentParts m ++
      (if optTruthy imageData ∧ i = lastIdx ∧ m.role = Role.user then
        [Gemini.Part.inlineData "image/jpeg" (imageData.getD "")]
      else
        []) }

/-- The body of the `for ... of` loop of the earlier revision's
`formatMessagesForGemini`: system messages are skipped with `continue`; the
identity test `message === messages[messages.length - 1]` is rendered
positionally as `i = lastIdx`. -/
def formatLoop (imageData : Option String) (lastIdx : Nat) :
    Nat → List Message → List Gemini.Turn
  | _, [] => []
  | i, m :: rest =>
      if m.role = Role.system then
        formatLoop imageData lastIdx (i + 1) rest
      else
        mkTurn imageData lastIdx i m :: formatLoop imageData lastIdx (i + 1) rest

/-- `GeminiService.formatMessagesForGemini` (earlier revision), with its
optional pending `imageData` parameter. -/
def formatMessagesForGemini (messages : List Message)
    (imageData : Option String) : List Gemini.Turn :=
  formatLoop imageData (messages.length - 1) 0 messages

/-- Whether a part is an inline-image part. -/
def isImagePart (p : Gemini.Part) : Bool :=
  match p with
  | Gemini.Part.inlineData _ _ => true
  | Gemini.Part.text _ => false

/-- Whether a part is a text part. -/
def isTextPart (p : Gemini.Part) : Bool :=
  match p with
  | Gemini.Part.text _ => true
  | Gemini.Part.inlineData _ _ => false

end GeminiV0

namespace Chat

/-- The active provider, the `apiType` prop of `ChatInterface`. -/
inductive ApiType where
  | gemini
  | openai
deriving DecidableEq

/-- A `Message` of the chat container: role, content, timestamp, and the
optional base64 image attached to a user message. -/
structure Msg where
  role : Role
  content : String
  timestamp : Nat
  imageData : Option String := none
deriving DecidableEq

/-- The `\x7b role, content \x7d` shape handed to a provider service by
`sendMessage` (both `GeminiMessage` and `OpenAIMessage` mappings). -/
structure WireMsg where
  role : Role
  content : String
deriving DecidableEq

/-- An outbound provider call issued by `sendMessage`. -/
inductive OutCall where
  | chatGemini (msgs : List WireMsg)
  | chatOpenai (msgs : List WireMsg)
  | vision (text : String) (imageBase64 : String)
deriving DecidableEq

/-- The state owned by `ChatInterface` that the request lifecycle touches:
the message log, the input field, the loading flag, the pending image, the
constructed service (credential) if any, audio settings, the live transcript
and listening flag, and the logs of surfaced toast errors and spoken texts. -/
structure State where
  messages : List Msg
  inputValue : String
  isLoading : Bool
  audioEnabled : Bool
  imageData : Option String
  aiService : Option String
  transcript : String
  isListening : Bool
  errors : List String
  spoken : List String
deriving DecidableEq

/-- The service-initialization effect: a service instance exists exactly when
the `apiKey` prop is truthy (non-empty). -/
def initAIService (apiKey : String) : Option String :=
  if apiKey ≠ "" then some apiKey else none

/-- The initial system message seeded into the log. -/
def initialSystemMsg : Msg :=
  { role := Role.system,
    content := "You are a helpful, friendly assistant. Keep responses concise and engaging. If a user uploads an image, describe what you see and respond to any questions about it.",
    timestamp := 0 }

/-- The initial `ChatInterface` state for a given `apiKey` prop. -/
def initState (apiKey : String) : State :=
  { messages := [initialSystemMsg]
    inputValue := ""
    isLoading := false
    audioEnabled := true
    imageData := none
    aiService := initAIService apiKey
    transcript := ""
    isListening := false
    errors := []
    spoken := [] }

/-- `imageData: imageData || undefined` — a falsy stored image becomes an
absent field on the appended user message. -/
def normImage (o : Option String) : Option String :=
  if optTruthy o then o else none

/-- The user `Msg` appended by `sendMessage`. -/
def mkUserMsg (now : Nat) (userMessage : String) (stored : Option String) : Msg :=
  { role := Role.user, content := userMessage, timestamp := now,
    imageData := normImage stored }

/-- The synchronous prefix of `sendMessage` once a service exists: append the
user message, clear the input field and transcript, and set `isLoading`. -/
def startSend (now : Nat) (s : State) (userMessage : String) : State :=
  { s with
    messages := s.messages ++ [mkUserMsg now userMessage s.imageData]
    inputValue := ""
    transcript := ""
    isLoading := true }

/-- The outbound call chosen by `sendMessage`, given the stored image, the
submitted text and the updated history: the one-shot vision call when the
provider is Gemini and an image is attached, else the conversational call on
the full updated history mapped to `\x7b role, content \x7d`. -/
def chooseCall (apiType : ApiType) (storedImage : Option String)
    (userMessage : String) (updated : List Msg) : OutCall :=
  if apiType = ApiType.gemini then
    if optTruthy storedImage then
      OutCall.vision userMessage (storedImage.getD "")
    else
      OutCall.chatGemini
        (updated.map (fun m => { role := m.role, content := m.content }))
  else
    OutCall.chatOpenai
      (updated.map (fun m => { role := m.role, content := m.content }))

/-- The continuation of `sendMessage` when the awaited call resolves: on
success append the assistant message and optionally queue speech; on failure
surface `error.message || 'Failed to get a response'`; in either case the
`finally` block clears `isLoading` and the stored image. -/
def finishSend (now : Nat) (s : State) (outcome : Except String String) : State :=
  match outcome with
  | Except.ok response =>
      { s with
        messages := s.messages ++
          [{ role := Role.assistant, content := response, timestamp := now }]
        spoken := if s.audioEnabled then s.spoken ++ [response] else s.spoken
        isLoading := false
        imageData := none }
  | Except.error e =>
      { s with
        errors := s.errors ++ [if e = "" then "Failed to get a response" else e]
        isLoading := false
        imageData := none }

/-- `ChatInterface.sendMessage`, with the result of the single awaited provider
call supplied as `outcome`.  Returns the new state and the list of outbound
calls issued.  Without a constructed service it only surfaces
`'API key is missing'` and issues no call. -/
def sendMessage (apiType : ApiType) (now : Nat) (s : State)
    (userMessage : String) (outcome : Except String String) :
    State × List OutCall :=
  match s.aiService with
  | none => ({ s with errors := s.errors ++ ["API key is missing"] }, [])
  | some _ =>
      (finishSend now (startSend now s userMessage) outcome,
       [chooseCall apiType s.imageData userMessage
          (startSend now s userMessage).messages])

/-- `handleSubmit`: trim the input and send only when the trimmed message is
non-empty. -/
def handleSubmit (apiType : ApiType) (now : Nat) (s : State)
    (outcome : Except String String) : State × List OutCall :=
  if s.inputValue.trim ≠ "" then
    sendMessage apiType now s s.inputValue.trim outcome
  else
    (s, [])

/-- The submit button's `disabled` predicate:
`!inputValue.trim() && !imageData || isLoading` (JavaScript precedence:
the conjunction binds tighter). -/
def submitDisabled (s : State) : Bool :=
  (s.inputValue.trim = "" ∧ ¬ optTruthy s.imageData) ∨ s.isLoading

/-- `displayMessages`: the message log filtered to hide system messages. -/
def displayMessages (messages : List Msg) : List Msg :=
  messages.filter (fun m => m.role ≠ Role.system)

/-- The speech-recognition `useEffect` body at a point where the session is not
listening: `if (transcript && !isListening) setInputValue(transcript)` and
nothing else — in particular it performs no submit and issues no call. -/
def speechRecognitionEffect (s : State) : State × List OutCall :=
  if s.transcript ≠ "" ∧ ¬ s.isListening then
    ({ s with inputValue := s.transcript }, [])
  else
    (s, [])

/-- A system configuration for the request lifecycle: the component state plus
the number of outbound chat calls issued and not yet resolved. -/
structure Sys where
  chat : State
  inFlight : Nat
deriving DecidableEq

/-- Small-step semantics of the request lifecycle at the granularity of the
browser event loop.  A submit event is observed through the submit button,
which is disabled while `isLoading`; a submit that passes the guard runs the
synchronous prefix of `sendMessage` and puts one call in flight; a resolution
event runs its continuation.  Edits to the input field and image selection
are also modelled, since they gate the button. -/
inductive Step (apiType : ApiType) : Sys → Sys → Prop
  | typeInput (s : Sys) (v : String) :
      Step apiType s { s with chat := { s.chat with inputValue := v } }
  | selectImage (s : Sys) (img : Option String) :
      Step apiType s { s with chat := { s.chat with imageData := img } }
  | submitBlocked (s : Sys) :
      submitDisabled s.chat = true →
      Step apiType s s
  | submitEmpty (s : Sys) :
      submitDisabled s.chat = false →
      s.chat.inputValue.trim = "" →
      Step apiType s s
  | submitNoService (s : Sys) :
      submitDisabled s.chat = false →
      s.chat.inputValue.trim ≠ "" →
      s.chat.aiService = none →
      Step apiType s
        { s with chat :=
            { s.chat with errors := s.chat.errors ++ ["API key is missing"] } }
  | submitStart (s : Sys) (now : Nat) (key : String) :
      submitDisabled s.chat = false →
      s.chat.inputValue.trim ≠ "" →
      s.chat.aiService = some key →
      Step apiType s
        { chat := startSend now s.chat s.chat.inputValue.trim
          inFlight := s.inFlight + 1 }
  | resolve (s : Sys) (now : Nat) (outcome : Except String String) :
      1 ≤ s.inFlight →
      Step apiType s
        { chat := finishSend now s.chat outcome
          inFlight := s.inFlight - 1 }

/-- Configurations reachable from the initial component state. -/
inductive Reachable (apiType : ApiType) (apiKey : String) : Sys → Prop
  | init : Reachable apiType apiKey { chat := initState apiKey, inFlight := 0 }
  | step (s t : Sys) :
      Reachable apiType apiKey s → Step apiType s t → Reachable apiType apiKey t

end Chat

/-- C7: every outbound Gemini call — the conversational `generateResponse` and
the one-shot vision `generateResponseWithImage` — carries a `generationConfig`
with exactly temperature 0.7, maxOutputTokens 800, topP 0.95 and topK 40. -/
theorem Gemini.requests_carry_fixed_generationConfig
    (messages : List Gemini.Message) (text imageBase64 : String) :
    (Gemini.generateResponseRequest messages).generationConfig =
      { temperature := 7/10, maxOutputTokens := 800, topP := 19/20, topK := 40 } ∧
    (Gemini.generateResponseWithImageRequest text imageBase64).generationConfig =
      { temperature := 7/10, maxOutputTokens := 800, topP := 19/20, topK := 40 } := by
  constructor
  · show Gemini.GenerationConfig.mk 0.7 800 0.95 40 = _
    norm_num
  · show Gemini.GenerationConfig.mk 0.7 800 0.95 40 = _
    norm_num

/-- C8: `displayMessages` returns exactly the non-system messages of the log in
their original order: it is a sublist of the log (order preserved, nothing
reordered), every element of it is non-system, and every non-system message
keeps its multiplicity. -/
theorem Chat.displayMessages_spec (messages : List Chat.Msg) :
    List.Sublist (Chat.displayMessages messages) messages ∧
    (∀ m ∈ Chat.displayMessages messages, m.role ≠ Role.system) ∧
    (∀ m : Chat.Msg, m.role ≠ Role.system →
      (Chat.displayMessages messages).count m = messages.count m) := by
  refine ⟨List.filter_sublist messages, ?_, ?_⟩
  · intro m hm
    have := List.of_mem_filter hm
    simpa using this
  · intro m hm
    exact List.count_filter (by simpa using hm)

/-- C8 witness at a concrete two-message log. -/
theorem Chat.displayMessages_spec_witness :
    (Chat.displayMessages
      [{ role := Role.system, content := "sys", timestamp := 0 },
       { role := Role.user, content := "hi", timestamp := 1 }]).count
        { role := Role.user, content := "hi", timestamp := 1 } =
    ([{ role := Role.system, content := "sys", timestamp := 0 },
      { role := Role.user, content := "hi", timestamp := 1 }] :
        List Chat.Msg).count
        { role := Role.user, content := "hi", timestamp := 1 } :=
  (Chat.displayMessages_spec
    [{ role := Role.system, content := "sys", timestamp := 0 },
     { role := Role.user, content := "hi", timestamp := 1 }]).2.2
    { role := Role.user, content := "hi", timestamp := 1 } (by decide)

/-- C4: `extractReply` fails with the format error exactly when `candidates` is
absent, the path `candidates[0]?.content?.parts` is absent, or `parts` is
empty; otherwise it returns `parts[0].text`, and in particular a well-formed
first part whose text is the empty string yields a valid empty reply, not an
error. -/
theorem Gemini.extractReply_spec (r : Gemini.GeminiResponse) :
    ((∃ e, Gemini.extractReply r = Except.error e) ↔
      (r.candidates = none ∨ Gemini.candidatesParts r = none ∨
        Gemini.candidatesParts r = some [])) ∧
    (∀ p ps, Gemini.candidatesParts r = some (p :: ps) →
      Gemini.extractReply r = Except.ok p.text) ∧
    (∀ p ps, Gemini.candidatesParts r = some (p :: ps) → p.text = some "" →
      Gemini.extractReply r = Except.ok (some "")) := by
  have hnone : r.candidates = none → Gemini.candidatesParts r = none := by
    intro h
    simp [Gemini.candidatesParts, h]
  refine ⟨?_, ?_, ?_⟩
  · unfold Gemini.extractReply
    rcases hcp : Gemini.candidatesParts r with _ | ⟨_ | ⟨p, ps⟩⟩
    · exact iff_of_true ⟨_, rfl⟩ (Or.inr (Or.inl rfl))
    · exact iff_of_true ⟨_, rfl⟩ (Or.inr (Or.inr rfl))
    · constructor
      · rintro ⟨e, he⟩
        exact absurd he (by simp)
      · rintro (h | h | h)
        · rw [hnone h] at hcp
          exact absurd hcp (by simp)
        · simp at h
        · simp at h
  · intro p ps hcp
    unfold Gemini.extractReply
    rw [hcp]
  · intro p ps hcp ht
    unfold Gemini.extractReply
    rw [hcp]
    exact congrArg Except.ok ht

/-- C4 witness: a concrete response with one empty-text part is accepted as an
empty reply, and a concrete response lacking `candidates` is rejected. -/
theorem Gemini.extractReply_spec_witness :
    Gemini.extractReply
      { candidates := some [{ content := some { parts := some [{ text := some "" }] } }] } =
      Except.ok (some "") :=
  (Gemini.extractReply_spec
    { candidates := some [{ content := some { parts := some [{ text := some "" }] } }] }).2.2
    { text := some "" } [] rfl rfl

/-- C10: when the response shape check passes but the first part has no `text`
field, `generateResponse` returns the absent value rather than raising the
format error — the shape check does not guarantee a string reply. -/
theorem Gemini.extractReply_missing_text (r : Gemini.GeminiResponse)
    (p : Gemini.RespPart) (ps : List Gemini.RespPart)
    (hcp : Gemini.candidatesParts r = some (p :: ps)) (ht : p.text = none) :
    Gemini.extractReply r = Except.ok none := by
  unfold Gemini.extractReply
  rw [hcp]
  exact congrArg Except.ok ht

/-- C10 witness: a concrete response whose only part is an image-like part
without `text` yields `ok none`. -/
theorem Gemini.extractReply_missing_text_witness :
    Gemini.extractReply
      { candidates := some [{ content := some { parts := some [{ text := none }] } }] } =
      Except.ok none :=
  Gemini.extractReply_missing_text
    { candidates := some [{ content := some { parts := some [{ text := none }] } }] }
    { text := none } [] rfl rfl

/-- C3: a submit while no service instance exists is refused: no outbound call
is issued, the message log is untouched, the loading flag never changes (the
controller never enters Sending), and the auth error message is surfaced. -/
theorem Chat.sendMessage_no_service (apiType : Chat.ApiType) (now : Nat)
    (s : Chat.State) (userMessage : String) (outcome : Except String String)
    (h : s.aiService = none) :
    (Chat.sendMessage apiType now s userMessage outcome).2 = [] ∧
    (Chat.sendMessage apiType now s userMessage outcome).1.messages = s.messages ∧
    (Chat.sendMessage apiType now s userMessage outcome).1.isLoading = s.isLoading ∧
    (Chat.sendMessage apiType now s userMessage outcome).1.errors =
      s.errors ++ ["API key is missing"] := by
  simp [Chat.sendMessage, h]

/-- C3 witness: submitting against the state constructed from an empty
credential issues no call and leaves the log alone. -/
theorem Chat.sendMessage_no_service_witness :
    (Chat.sendMessage Chat.ApiType.gemini 1 (Chat.initState "") "hi"
      (Except.error "boom")).2 = [] ∧
    (Chat.sendMessage Chat.ApiType.gemini 1 (Chat.initState "") "hi"
      (Except.error "boom")).1.messages = (Chat.initState "").messages ∧
    (Chat.sendMessage Chat.ApiType.gemini 1 (Chat.initState "") "hi"
      (Except.error "boom")).1.isLoading = (Chat.initState "").isLoading ∧
    (Chat.sendMessage Chat.ApiType.gemini 1 (Chat.initState "") "hi"
      (Except.error "boom")).1.errors =
      (Chat.initState "").errors ++ ["API key is missing"] :=
  Chat.sendMessage_no_service Chat.ApiType.gemini 1 (Chat.initState "") "hi"
    (Except.error "boom") (by decide)

/-- C2: when the outbound call of a submit fails, no assistant message is
appended — the log ends with exactly the user message this submit appended —
the controller returns to Idle (`isLoading` false), and a human-readable error
message is surfaced (the thrown message, or the generic fallback when it is
empty). -/
theorem Chat.sendMessage_failure (apiType : Chat.ApiType) (now : Nat)
    (s : Chat.State) (userMessage : String) (e : String)
    (h : s.aiService.isSome) :
    (Chat.sendMessage apiType now s userMessage (Except.error e)).1.messages =
      s.messages ++ [Chat.mkUserMsg now userMessage s.imageData] ∧
    (Chat.sendMessage apiType now s userMessage
      (Except.error e)).1.messages.getLast? =
      some (Chat.mkUserMsg now userMessage s.imageData) ∧
    (Chat.sendMessage apiType now s userMessage (Except.error e)).1.isLoading =
      false ∧
    (Chat.sendMessage apiType now s userMessage (Except.error e)).1.errors =
      s.errors ++ [if e = "" then "Failed to get a response" else e] := by
  obtain ⟨k, hk⟩ := Option.isSome_iff_exists.mp h
  simp [Chat.sendMessage, hk, Chat.startSend, Chat.finishSend]

/-- C2 witness: a failing Gemini submit from a freshly constructed state
appends only the user message and returns to Idle with the error surfaced. -/
theorem Chat.sendMessage_failure_witness :
    (Chat.sendMessage Chat.ApiType.gemini 2 (Chat.initState "key") "hi"
      (Except.error "boom")).1.messages =
      (Chat.initState "key").messages ++
        [Chat.mkUserMsg 2 "hi" (Chat.initState "key").imageData] ∧
    (Chat.sendMessage Chat.ApiType.gemini 2 (Chat.initState "key") "hi"
      (Except.error "boom")).1.messages.getLast? =
      some (Chat.mkUserMsg 2 "hi" (Chat.initState "key").imageData) ∧
    (Chat.sendMessage Chat.ApiType.gemini 2 (Chat.initState "key") "hi"
      (Except.error "boom")).1.isLoading = false ∧
    (Chat.sendMessage Chat.ApiType.gemini 2 (Chat.initState "key") "hi"
      (Except.error "boom")).1.errors =
      (Chat.initState "key").errors ++
        [if "boom" = "" then "Failed to get a response" else "boom"] :=
  Chat.sendMessage_failure Chat.ApiType.gemini 2 (Chat.initState "key") "hi"
    "boom" (by decide)

/-- C9: at speech-recognition finalization (`isListening` false), a non-empty
transcript is copied into the input field and nothing else happens — no
message is appended and no outbound call is issued — while an empty transcript
leaves the state entirely unchanged. -/
theorem Chat.speechFinalization_spec (s : Chat.State)
    (h : s.isListening = false) :
    (Chat.speechRecognitionEffect s).2 = [] ∧
    (Chat.speechRecognitionEffect s).1.messages = s.messages ∧
    (s.transcript ≠ "" →
      (Chat.speechRecognitionEffect s).1 = { s with inputValue := s.transcript }) ∧
    (s.transcript = "" → (Chat.speechRecognitionEffect s).1 = s) := by
  by_cases ht : s.transcript = ""
  · simp [Chat.speechRecognitionEffect, ht]
  · simp [Chat.speechRecognitionEffect, ht, h]

/-- C9 witness: finalizing with transcript `"hello"` copies it into the input
field, appends nothing and issues no call. -/
theorem Chat.speechFinalization_spec_witness :
    (Chat.speechRecognitionEffect
      { Chat.initState "key" with transcript := "hello" }).2 = [] ∧
    (Chat.speechRecognitionEffect
      { Chat.initState "key" with transcript := "hello" }).1.messages =
      ({ Chat.initState "key" with transcript := "hello" } : Chat.State).messages ∧
    (Chat.speechRecognitionEffect
      { Chat.initState "key" with transcript := "hello" }).1 =
      { ({ Chat.initState "key" with transcript := "hello" } : Chat.State) with
          inputValue := "hello" } :=
  ⟨(Chat.speechFinalization_spec
      { Chat.initState "key" with transcript := "hello" } rfl).1,
   (Chat.speechFinalization_spec
      { Chat.initState "key" with transcript := "hello" } rfl).2.1,
   (Chat.speechFinalization_spec
      { Chat.initState "key" with transcript := "hello" } rfl).2.2.1 (by decide)⟩

/-- Loading-flag accounting for the request lifecycle: the number of calls in
flight is 1 exactly while `isLoading` is set, and 0 otherwise. -/
theorem Chat.reachable_inFlight_eq (apiType : Chat.ApiType) (apiKey : String)
    (s : Chat.Sys) (h : Chat.Reachable apiType apiKey s) :
    s.inFlight = (if s.chat.isLoading then 1 else 0) := by
  induction h with
  | init => simp [Chat.initState]
  | step s t _ hstep ih =>
      cases hstep with
      | typeInput v => simpa using ih
      | selectImage img => simpa using ih
      | submitBlocked hdis => exact ih
      | submitEmpty hdis hempty => exact ih
      | submitNoService hdis hne hnone => simpa using ih
      | submitStart now key hdis hne hsvc =>
          have hload : s.chat.isLoading = false := by
            by_contra hl
            have : Chat.submitDisabled s.chat = true := by
              simp [Chat.submitDisabled, eq_true_of_ne_false hl]
            rw [this] at hdis
            exact absurd hdis (by simp)
          rw [hload] at ih
          simp [Chat.startSend, ih]
      | resolve now outcome hfl =>
          have hload : s.chat.isLoading = true := by
            by_contra hl
            rw [eq_false_of_ne_true hl] at ih
            simp at ih
            omega
          rw [hload] at ih
          cases outcome with
          | ok r => simp [Chat.finishSend, ih]
          | error e => simp [Chat.finishSend, ih]

/-- C6: in every reachable configuration at most one outbound chat call is in
flight, and while one is (`isLoading` set, the Sending state) the submit
control is disabled, so a new submit is rejected. -/
theorem Chat.no_concurrent_calls (apiType : Chat.ApiType) (apiKey : String)
    (s : Chat.Sys) (h : Chat.Reachable apiType apiKey s) :
    s.inFlight ≤ 1 ∧
    (s.chat.isLoading = true → Chat.submitDisabled s.chat = true) := by
  constructor
  · have := Chat.reachable_inFlight_eq apiType apiKey s h
    rw [this]
    by_cases hl : s.chat.isLoading <;> simp [hl]
  · intro hl
    simp [Chat.submitDisabled, hl]

/-- C6 witness at the initial configuration. -/
theorem Chat.no_concurrent_calls_witness :
    ({ chat := Chat.initState "key", inFlight := 0 } : Chat.Sys).inFlight ≤ 1 ∧
    (({ chat := Chat.initState "key", inFlight := 0 } : Chat.Sys).chat.isLoading =
        true →
      Chat.submitDisabled
        ({ chat := Chat.initState "key", inFlight := 0 } : Chat.Sys).chat = true) :=
  Chat.no_concurrent_calls Chat.ApiType.gemini "key"
    { chat := Chat.initState "key", inFlight := 0 } Chat.Reachable.init

/-- From loop index 1 onward no folding happens: every later turn is the plain
serialization of its message. -/
theorem Gemini.formatLoop_plain (sys : String) (rest : List Gemini.Message) :
    ∀ n, 1 ≤ n → Gemini.formatLoop sys n rest = rest.map Gemini.plainTurn := by
  induction rest with
  | nil => intro n hn; simp [Gemini.formatLoop]
  | cons m rest ih =>
      intro n hn
      have hne : ¬ (n = 0 ∧ m.role = Role.user ∧ sys ≠ "") := by
        rintro ⟨h0, -⟩
        omega
      simp [Gemini.formatLoop, Gemini.mkParts, hne, Gemini.plainTurn,
        ih (n + 1) (by omega)]

/-- C1 counterexample: a conversation that contains a System message (with
empty text) whose first non-System message is a User message, yet the first
turn's text is the user text alone — the System text is not prepended with the
separator as the claim requires. -/
theorem Gemini.fold_counterexample :
    Gemini.formatMessagesForGemini
      [{ role := Role.system, content := "" },
       { role := Role.user, content := "hi" }] =
      [{ role := "user", parts := [Gemini.Part.text "hi"] }] ∧
    ("hi" : String) ≠ "" ++ "\n\nUser: " ++ "hi" := by
  constructor
  · decide
  · decide

/-- C1 (amended): when the first System message's text is non-empty and the
first non-System message is a User message, serialization folds the System
text exactly once — prepending it plus the separator to that first User turn —
while every later turn is the plain serialization of its own message and no
turn for the System message itself appears. -/
theorem Gemini.system_folding (messages : List Gemini.Message)
    (m0 : Gemini.Message) (rest : List Gemini.Message)
    (hsys : Gemini.extractSystemMessage messages ≠ "")
    (hns : messages.filter (fun m => m.role ≠ Role.system) = m0 :: rest)
    (hrole : m0.role = Role.user) :
    Gemini.formatMessagesForGemini messages =
      Gemini.foldedTurn (Gemini.extractSystemMessage messages) m0 ::
        rest.map Gemini.plainTurn := by
  unfold Gemini.formatMessagesForGemini
  rw [hns]
  have hcond : (0 = 0 ∧ m0.role = Role.user ∧
      Gemini.extractSystemMessage messages ≠ "") := ⟨rfl, hrole, hsys⟩
  simp only [Gemini.formatLoop, Gemini.mkParts, if_pos hcond,
    Gemini.formatLoop_plain _ rest 1 (by omega)]
  simp [Gemini.foldedTurn, Gemini.wireRole, hrole, hsys]

/-- C1 witness: the spec scenario — System `"Be concise"` then User `"Hello"`
serializes to a single user turn whose text is the folded system text plus the
separator plus `"Hello"`. -/
theorem Gemini.system_folding_witness :
    Gemini.formatMessagesForGemini
      [{ role := Role.system, content := "Be concise" },
       { role := Role.user, content := "Hello" }] =
      Gemini.foldedTurn "Be concise" { role := Role.user, content := "Hello" } ::
        List.map Gemini.plainTurn [] :=
  Gemini.system_folding
    [{ role := Role.system, content := "Be concise" },
     { role := Role.user, content := "Hello" }]
    { role := Role.user, content := "Hello" } []
    (by decide) (by decide) rfl

/-- C5 counterexample: serializing a single User message whose content is
itself an image, with a pending image supplied, produces a turn with no text
part and two inline-image parts — refuting both per-turn clauses of the
claim. -/
theorem GeminiV0.pendingImage_counterexample :
    ¬ (∀ t ∈ GeminiV0.formatMessagesForGemini
        [{ role := Role.user, content := GeminiV0.Content.image "AAA" }]
        (some "BBB"),
        (∃ p ∈ t.parts, GeminiV0.isTextPart p) ∧
        (t.parts.filter GeminiV0.isImagePart).length ≤ 1) := by
  decide

/-- One-step unfolding of the earlier revision's serialization loop on a
non-empty list. -/
theorem GeminiV0.formatLoop_cons (img : Option String) (l i : Nat)
    (m : GeminiV0.Message) (rest : List GeminiV0.Message) :
    GeminiV0.formatLoop img l i (m :: rest) =
      if m.role = Role.system then GeminiV0.formatLoop img l (i + 1) rest
      else GeminiV0.mkTurn img l i m :: GeminiV0.formatLoop img l (i + 1) rest :=
  rfl

/-- Without a truthy pending image, every turn produced by the earlier
revision's serializer is the single content part of some non-system message of
the input. -/
theorem GeminiV0.formatLoop_none_mem (ms : List GeminiV0.Message)
    (l : Nat) :
    ∀ i t, t ∈ GeminiV0.formatLoop none l i ms →
      ∃ m, m ∈ ms ∧ m.role ≠ Role.system ∧
        t = { role := Gemini.wireRole m.role, parts := GeminiV0.contentParts m } := by
  induction ms with
  | nil => intro i t ht; simp [GeminiV0.formatLoop] at ht
  | cons m rest ih =>
      intro i t ht
      by_cases hm : m.role = Role.system
      · rw [GeminiV0.formatLoop, if_pos hm] at ht
        obtain ⟨m', hmem, hrole, hteq⟩ := ih (i + 1) t ht
        exact ⟨m', List.mem_cons_of_mem m hmem, hrole, hteq⟩
      · rw [GeminiV0.formatLoop, if_neg hm] at ht
        rcases List.mem_cons.mp ht with hhd | htl
        · refine ⟨m, List.mem_cons_self m rest, hm, ?_⟩
          rw [hhd]
          simp [GeminiV0.mkTurn, optTruthy]
        · obtain ⟨m', hmem, hrole, hteq⟩ := ih (i + 1) t htl
          exact ⟨m', List.mem_cons_of_mem m hmem, hrole, hteq⟩

/-- When the element at the final position is not a user message, the pending
image parameter has no effect on the serialization of the suffix. -/
theorem GeminiV0.formatLoop_last_not_user (d : String)
    (ms : List GeminiV0.Message) (l : Nat) :
    ∀ i, i + ms.length = l + 1 →
      (∀ mL, ms.getLast? = some mL → mL.role ≠ Role.user) →
      GeminiV0.formatLoop (some d) l i ms = GeminiV0.formatLoop none l i ms := by
  induction ms with
  | nil => intro i hi hlast; simp [GeminiV0.formatLoop]
  | cons m rest ih =>
      intro i hi hlast
      cases rest with
      | nil =>
          have hmu : m.role ≠ Role.user := hlast m (by simp)
          by_cases hm : m.role = Role.system
          · conv_lhs => rw [GeminiV0.formatLoop_cons]
            conv_rhs => rw [GeminiV0.formatLoop_cons]
            rw [if_pos hm, if_pos hm]
            rfl
          · conv_lhs => rw [GeminiV0.formatLoop_cons]
            conv_rhs => rw [GeminiV0.formatLoop_cons]
            rw [if_neg hm, if_neg hm]
            have hnil : GeminiV0.formatLoop (some d) l (i + 1) [] =
                GeminiV0.formatLoop none l (i + 1) [] := rfl
            rw [hnil]
            simp [GeminiV0.mkTurn, optTruthy, hmu]
      | cons m2 rest2 =>
          have hil : i ≠ l := by
            simp only [List.length_cons] at hi
            omega
          have hrec : GeminiV0.formatLoop (some d) l (i + 1) (m2 :: rest2) =
              GeminiV0.formatLoop none l (i + 1) (m2 :: rest2) := by
            refine ih (i + 1) ?_ ?_
            · simp only [List.length_cons] at hi ⊢
              omega
            · intro mL hmL
              exact hlast mL (by rw [List.getLast?_cons_cons]; exact hmL)
          by_cases hm : m.role = Role.system
          · conv_lhs => rw [GeminiV0.formatLoop_cons]
            conv_rhs => rw [GeminiV0.formatLoop_cons]
            rw [if_pos hm, if_pos hm]
            exact hrec
          · conv_lhs => rw [GeminiV0.formatLoop_cons]
            conv_rhs => rw [GeminiV0.formatLoop_cons]
            rw [if_neg hm, if_neg hm, hrec]
            congr 1
            simp [GeminiV0.mkTurn, optTruthy, hil]

/-- When the element at the final position is a user message and the pending
image is truthy, the serialization with the pending image equals the plain
serialization with one inline-image part appended to the final turn. -/
theorem GeminiV0.formatLoop_last_user (d : String) (hd : d ≠ "")
    (ms : List GeminiV0.Message) (l : Nat) :
    ∀ i mL, i + ms.length = l + 1 → ms.getLast? = some mL →
      mL.role = Role.user →
      ∃ pre t, GeminiV0.formatLoop none l i ms = pre ++ [t] ∧
        GeminiV0.formatLoop (some d) l i ms =
          pre ++ [{ role := t.role,
                    parts := t.parts ++
                      [Gemini.Part.inlineData "image/jpeg" d] }] := by
  induction ms with
  | nil => intro i mL hi hlast hrole; simp at hlast
  | cons m rest ih =>
      intro i mL hi hlast hrole
      cases rest with
      | nil =>
          have hm : m = mL := by simpa using hlast
          subst hm
          have hil : i = l := by simpa using hi
          have hsys : ¬ m.role = Role.system := by rw [hrole]; decide
          refine ⟨[], Gemini.Turn.mk (Gemini.wireRole m.role)
            (GeminiV0.contentParts m), ?_, ?_⟩
          · conv_lhs => rw [GeminiV0.formatLoop_cons]
            rw [if_neg hsys]
            have hnil : GeminiV0.formatLoop none l (i + 1) [] = [] := rfl
            rw [hnil]
            simp [GeminiV0.mkTurn, optTruthy]
          · conv_lhs => rw [GeminiV0.formatLoop_cons]
            rw [if_neg hsys]
            have hnil : GeminiV0.formatLoop (some d) l (i + 1) [] = [] := rfl
            rw [hnil]
            simp [GeminiV0.mkTurn, optTruthy, hd, hil, hrole]
      | cons m2 rest2 =>
          have hil : i ≠ l := by
            simp only [List.length_cons] at hi
            omega
          have hlast2 : (m2 :: rest2).getLast? = some mL := by
            rw [← List.getLast?_cons_cons (a := m)]
            exact hlast
          obtain ⟨pre, t, hnone, hsome⟩ :=
            ih (i + 1) mL (by simp only [List.length_cons] at hi ⊢; omega)
              hlast2 hrole
          by_cases hm : m.role = Role.system
          · refine ⟨pre, t, ?_, ?_⟩
            · conv_lhs => rw [GeminiV0.formatLoop_cons]
              rw [if_pos hm]
              exact hnone
            · conv_lhs => rw [GeminiV0.formatLoop_cons]
              rw [if_pos hm]
              exact hsome
          · have hturn : GeminiV0.mkTurn (some d) l i m =
                GeminiV0.mkTurn none l i m := by
              simp [GeminiV0.mkTurn, optTruthy, hil]
            refine ⟨GeminiV0.mkTurn none l i m :: pre, t, ?_, ?_⟩
            · conv_lhs => rw [GeminiV0.formatLoop_cons]
              rw [if_neg hm, hnone]
              simp
            · conv_lhs => rw [GeminiV0.formatLoop_cons]
              rw [if_neg hm, hturn, hsome]
              simp

/-- C5 (amended): without a pending image every wire turn is exactly the single
content part of its non-system source message (a text part for string content,
an inline-image part for image content); a non-empty pending image is attached
only when the conversation's last message is a User message, and then exactly
one inline-image part is appended to that final turn, every other turn being
unchanged; with any other conversation shape the pending image changes
nothing. -/
theorem GeminiV0.pendingImage_spec (ms : List GeminiV0.Message) (d : String)
    (hd : d ≠ "") :
    (∀ t ∈ GeminiV0.formatMessagesForGemini ms none,
      ∃ m, m ∈ ms ∧ m.role ≠ Role.system ∧
        t = { role := Gemini.wireRole m.role,
              parts := GeminiV0.contentParts m }) ∧
    (∀ mL, ms.getLast? = some mL → mL.role ≠ Role.user →
      GeminiV0.formatMessagesForGemini ms (some d) =
        GeminiV0.formatMessagesForGemini ms none) ∧
    (ms.getLast? = none → GeminiV0.formatMessagesForGemini ms (some d) = []) ∧
    (∀ mL, ms.getLast? = some mL → mL.role = Role.user →
      ∃ pre t, GeminiV0.formatMessagesForGemini ms none = pre ++ [t] ∧
        GeminiV0.formatMessagesForGemini ms (some d) =
          pre ++ [{ role := t.role,
                    parts := t.parts ++
                      [Gemini.Part.inlineData "image/jpeg" d] }]) := by
  refine ⟨?_, ?_, ?_, ?_⟩
  · intro t ht
    exact GeminiV0.formatLoop_none_mem ms (ms.length - 1) 0 t ht
  · intro mL hlast hrole
    have hne : ms ≠ [] := by
      intro h
      rw [h] at hlast
      simp at hlast
    have hlen : 0 + ms.length = (ms.length - 1) + 1 := by
      have := List.length_pos.mpr hne
      omega
    unfold GeminiV0.formatMessagesForGemini
    exact GeminiV0.formatLoop_last_not_user d ms (ms.length - 1) 0 hlen
      (fun m hm => by rw [hlast] at hm; injection hm with h; rw [← h]; exact hrole)
  · intro hnone
    have : ms = [] := List.getLast?_eq_none_iff.mp hnone
    rw [this]
    rfl
  · intro mL hlast hrole
    have hne : ms ≠ [] := by
      intro h
      rw [h] at hlast
      simp at hlast
    have hlen : 0 + ms.length = (ms.length - 1) + 1 := by
      have := List.length_pos.mpr hne
      omega
    unfold GeminiV0.formatMessagesForGemini
    exact GeminiV0.formatLoop_last_user d hd ms (ms.length - 1) 0 mL hlen
      hlast hrole

/-- C5 witness: one User text message plus pending image `"BBB"` — the single
turn gains exactly one appended inline-image part. -/
theorem GeminiV0.pendingImage_spec_witness :
    ∃ pre t, GeminiV0.formatMessagesForGemini
        [{ role := Role.user, content := GeminiV0.Content.text "hi" }] none =
        pre ++ [t] ∧
      GeminiV0.formatMessagesForGemini
        [{ role := Role.user, content := GeminiV0.Content.text "hi" }]
        (some "BBB") =
        pre ++ [{ role := t.role,
                  parts := t.parts ++
                    [Gemini.Part.inlineData "image/jpeg" "BBB"] }] :=
  (GeminiV0.pendingImage_spec
    [{ role := Role.user, content := GeminiV0.Content.text "hi" }] "BBB"
    (by decide)).2.2.2
    { role := Role.user, content := GeminiV0.Content.text "hi" } rfl rfl
